import Mathlib

/-!
Verification development for the lock-free arena allocator in
src/rarena-allocator/src/arena.rs (crate rarena-allocator).

The embedding is a sequential model of the allocator: every operation is run
by a single thread, so every compare-and-swap observes the value that was just
loaded and succeeds. The spurious-failure / contention branches of the source
(the Backoff snooze and spin retries) therefore either are dead code or, when
the source would spin forever waiting for another thread (a tombstoned node
with size 0 and no other thread to complete the removal), the model returns
none (divergence). Machine integers are modelled as Nat with an explicit
mod 2^32 (resp. 2^8 for the u8 retry counter) wherever the source performs
u32/u8 arithmetic that can wrap in release builds.

Memory: the data region is modelled as a word store mem : Nat -> Nat mapping
a byte address to the 64-bit segment-node word stored at that address. The
byte-zeroing performed by dealloc and clear is modelled on this store by
clearing every word slot that lies entirely inside the zeroed byte range
(word slots of live nodes are never partially overlapped in the executions
the theorems talk about).
-/

/-- u32::MAX. -/
def u32Max : Nat := 4294967295

/-- The modulus of u32 arithmetic, 2^32. -/
def pow32 : Nat := 4294967296

/-- Source: encode_segment_node (arena.rs line 1016): ((next as u64) << 32) | size as u64. -/
def encode_segment_node (next size : Nat) : Nat :=
  (next % pow32) * pow32 + size % pow32

/-- Source: decode_segment_node (arena.rs line 1011): ((val >> 32) as u32, val as u32). -/
def decode_segment_node (val : Nat) : Nat × Nat :=
  (val / pow32 % pow32, val % pow32)

/-- Model of ptr.align_offset(align): the number of bytes to add to the
address addr so that it becomes a multiple of align. -/
def align_offset (addr align : Nat) : Nat :=
  (align - addr % align) % align

/-- The four atomic words of the region header (arena.rs line 35). -/
structure Header where
  sentinel : Nat
  allocated : Nat
  min_segment_size : Nat
  discarded : Nat
  deriving Repr, DecidableEq

/-- The allocation descriptor returned to the caller (arena.rs line 55). -/
structure Allocated where
  offset : Nat
  cap : Nat
  deriving Repr, DecidableEq

/-- The two error kinds of the allocator (crate error type). -/
inductive AError where
  | readOnly
  | insufficientSpace (requested available : Nat)
  deriving Repr, DecidableEq

/-- Result of an allocation call: ok none is the null descriptor returned for
zero-sized requests. -/
inductive AllocResult where
  | ok (res : Option Allocated)
  | error (e : AError)
  deriving Repr, DecidableEq

/-- Sequential model of the Arena (arena.rs line 61) together with the state
it reaches through its header. baseAddr is the numeric value of the region
base pointer self.ptr; write_data_ptr and read_data_ptr both hold
baseAddr + dataOffset (Memory::as_ptr / as_mut_ptr add data_offset to the
base pointer). mem is the word store of the data region. hw is a ghost
field, modelled from the spec: allocated_high_water, the largest value the
allocated counter has taken; the source does not store it. -/
structure Arena where
  header : Header
  mem : Nat → Nat
  cap : Nat
  dataOffset : Nat
  baseAddr : Nat
  maxRetries : Nat
  ro : Bool
  hw : Nat

/-- Numeric value of write_data_ptr = read_data_ptr = base + data_offset. -/
def dataAddr (a : Arena) : Nat := a.baseAddr + a.dataOffset

/-- Source: Arena::size (line 122): the allocated counter. -/
def Arena.size (a : Arena) : Nat := a.header.allocated

/-- Source: Arena::remaining (line 134): cap.saturating_sub(size). -/
def Arena.remaining (a : Arena) : Nat := a.cap - a.size

/-- Address of the segment node slot for the segment starting at offset:
the first 8-byte aligned address at or after write_data_ptr + offset
(get_segment_node / write_segment_node, arena.rs lines 915-930). -/
def slotAddr (a : Arena) (offset : Nat) : Nat :=
  dataAddr a + offset + align_offset (dataAddr a + offset) 8

/-- Source: Arena::get_segment_node (line 915): load of the node word. -/
def get_segment_node (a : Arena) (offset : Nat) : Nat :=
  a.mem (slotAddr a offset)

/-- Source: Arena::write_segment_node (line 922): store encode(next, size)
at the node slot of offset. -/
def write_segment_node (a : Arena) (next offset size : Nat) : Arena :=
  { a with mem := fun addr =>
      if addr = slotAddr a offset then encode_segment_node next size else a.mem addr }

/-- Model of ptr::write_bytes(write_data_ptr.add(start), 0, len) on the word
store: every word slot lying entirely inside the zeroed byte range
becomes 0. -/
def zero_bytes (a : Arena) (start len : Nat) : Arena :=
  { a with mem := fun addr =>
      if dataAddr a + start ≤ addr ∧ addr + 8 ≤ dataAddr a + start + len
      then 0 else a.mem addr }

/-- Source: Arena::discard (line 910): discarded.fetch_add(size) in u32. -/
def Arena.discard (a : Arena) (size : Nat) : Arena :=
  { a with header := { a.header with
      discarded := (a.header.discarded + size) % pow32 } }

/-- Source: Arena::validate_segment (line 847): the segment must have room,
strictly within its size, for the alignment padding plus an AtomicU64 (8
bytes) plus a u32 (4 bytes), and size must reach min_segment_size. -/
def validate_segment (a : Arena) (offset size : Nat) : Bool :=
  let ao := align_offset (dataAddr a + offset) 8
  let want := ao + 8 + 4
  if size ≤ want then false
  else if size < a.header.min_segment_size then false
  else true

/-- A location holding a segment-node word: none is the sentinel in the
header, some off is the node slot of the segment at off. -/
def loadLoc (a : Arena) : Option Nat → Nat
  | none => a.header.sentinel
  | some off => get_segment_node a off

/-- Store a word at a node location (the sentinel or a node slot). -/
def storeLoc (a : Arena) (loc : Option Nat) (v : Nat) : Arena :=
  match loc with
  | none => { a with header := { a.header with sentinel := v } }
  | some off =>
    { a with mem := fun addr => if addr = slotAddr a off then v else a.mem addr }

/-- Source: Arena::find_free_list_position (line 864), sequential model.
current is the location being examined, prev the u32 prev variable of the
source (0 encodes the sentinel, as in the source). fuel bounds the walk;
none means the walk did not finish (it hit a tombstone, on which the
source would snooze forever with no other thread to make progress, or the
fuel ran out). -/
def findLoop (a : Arena) (val : Nat) : Option Nat → Nat → Nat → Option (Option Nat × Option Nat)
  | _, _, 0 => none
  | cur, prev, fuel+1 =>
    let dn := decode_segment_node (loadLoc a cur)
    if dn.1 = u32Max then
      some (if prev = 0 then none else some prev, none)
    else if dn.2 = 0 then none
    else if val ≥ dn.2 then
      some (if prev = 0 then none else some prev, some dn.1)
    else
      findLoop a val (some dn.1) dn.1 fuel

/-- Entry point of the free-list walk, starting at the sentinel. -/
def find_free_list_position (a : Arena) (val fuel : Nat) : Option (Option Nat × Option Nat) :=
  findLoop a val none 0 fuel

/-- Body of the insertion loop of Arena::dealloc (line 801), sequential
model, ran after the segment bytes have been zeroed. Each iteration finds
the position, writes the new node word, reloads the predecessor word and,
if the predecessor is not tombstoned, CASes it to point at the new node;
sequentially that CAS always succeeds because the reloaded value is still
there. The tombstone branch re-enters the loop as the source does. (It also
returns the position used, consumed by the ghost free-list bookkeeping of
the C5 state machine.) -/
def deallocBody (a : Arena) (offset size : Nat) : Nat → Nat → Option (Arena × (Option Nat × Option Nat))
  | 0, _ => none
  | fuel+1, posFuel =>
    match find_free_list_position a size posFuel with
    | none => none
    | some (prev, next) =>
      let a₂ := write_segment_node a (next.getD u32Max) offset size
      let prevVal := loadLoc a₂ prev
      if (decode_segment_node prevVal).2 = 0 then
        deallocBody a₂ offset size fuel posFuel
      else
        some (storeLoc a₂ prev (encode_segment_node offset size), (prev, next))

/-- Source: Arena::dealloc (line 785) with the insertion position it used as
an extra observation: reject-and-discard invalid segments, otherwise zero
the segment and insert it into the free list. -/
def deallocCore (a : Arena) (offset size fuel posFuel : Nat) :
    Option (Arena × Option (Option Nat × Option Nat)) :=
  if validate_segment a offset size = false then
    some (a.discard size, none)
  else
    (deallocBody (zero_bytes a offset size) offset size fuel posFuel).map
      (fun p => (p.1, some p.2))

/-- Source: Arena::dealloc (line 785). -/
def dealloc (a : Arena) (offset size fuel posFuel : Nat) : Option Arena :=
  (deallocCore a offset size fuel posFuel).map (·.1)

/-- Source: Arena::alloc_slow_path (line 657), sequential model: pop the head
of the free list. The two sentinel CASes (tombstone the head, then swing
the sentinel to the head's next word) always succeed sequentially. When
the head is tombstoned (size 0) the source snoozes waiting for another
thread, which sequentially never makes progress: none. -/
def alloc_slow_path (a : Arena) (size fuel posFuel : Nat) :
    Option (Arena × AllocResult) :=
  if a.ro then some (a, .error .readOnly)
  else
    let dn := decode_segment_node a.header.sentinel
    if dn.1 = u32Max ∧ dn.2 = u32Max then
      some (a, .error (.insufficientSpace (size % pow32) (a.remaining % pow32)))
    else if dn.2 = 0 then none
    else if size > dn.2 then
      some (a, .error (.insufficientSpace (size % pow32) dn.2))
    else
      let a₂ := { a with header := { a.header with
                    sentinel := get_segment_node a dn.1 } }
      (dealloc a₂ ((dn.1 + size) % pow32) (dn.2 - size) fuel posFuel).map
        (fun a₃ => (a₃, .ok (some ⟨dn.1, size⟩)))

/-- The value the u8 expression max_retries - 1 takes (wrapping in release
builds: 255 when max_retries = 0). -/
def retryTarget (maxRetries : Nat) : Nat := (maxRetries + 255) % 256

/-- The slow-path retry loop shared by alloc_bytes_in (line 643) and
alloc_in (line 772): retry alloc_slow_path until it succeeds or the u8
counter i reaches max_retries - 1. Also counts how many alloc_slow_path
attempts were made (the first component of the result). -/
def slowLoop (a : Arena) (size : Nat) : Nat → Nat → Nat → Nat → Option (Nat × Arena × AllocResult)
  | _, 0, _, _ => none
  | i, fuel+1, spFuel, posFuel =>
    match alloc_slow_path a size spFuel posFuel with
    | none => none
    | some (a', .ok r) => some (1, a', .ok r)
    | some (a', .error e) =>
      if i = retryTarget a.maxRetries then some (1, a', .error e)
      else (slowLoop a' size (i+1) fuel spFuel posFuel).map
        (fun p => (p.1 + 1, p.2))

/-- Record a successful bump of the allocated counter to want; also updates
the ghost high-water mark. -/
def bumpTo (a : Arena) (want : Nat) : Arena :=
  { a with header := { a.header with allocated := want },
           hw := max a.hw want }

/-- Source: Arena::alloc_bytes_in (line 611), sequential model. The fast
path computes want = allocated + size in u32 (which wraps in release
builds), succeeds when want does not exceed cap (the CAS succeeds
sequentially), and otherwise falls through to the slow-path retry loop. -/
def alloc_bytes_in (a : Arena) (size fuel posFuel : Nat) : Option (Arena × AllocResult) :=
  if a.ro then some (a, .error .readOnly)
  else if size = 0 then some (a, .ok none)
  else
    let alloc := a.header.allocated
    let want := (alloc + size) % pow32
    if want > a.cap then
      (slowLoop a size 0 256 fuel posFuel).map (·.2)
    else
      some (bumpTo a want, .ok (some ⟨alloc, size⟩))

/-- Source: Arena::get_pointer (line 529): offset 0 is the null sentinel and
yields the base pointer, otherwise read_data_ptr + offset. -/
def get_pointer (a : Arena) (offset : Nat) : Nat :=
  if offset = 0 then a.baseAddr else dataAddr a + offset

/-- Source: Arena::get_aligned_pointer (line 564) as an address: 0 for the
null offset, otherwise read_data_ptr + offset aligned up to alignT. -/
def get_aligned_pointer (a : Arena) (offset alignT : Nat) : Nat :=
  if offset = 0 then 0
  else
    let p := dataAddr a + offset
    p + align_offset p alignT

/-- Source: Arena::pad::<T> (line 958): size_of + align_of - 1. -/
def pad (sizeT alignT : Nat) : Nat := sizeT + alignT - 1

/-- Source: Arena::alloc_in::<T> (line 736), sequential model, parametrised
by size_of::<T> and align_of::<T>. The reserved size of the fast path is
the local alignment padding of the current bump pointer plus size_of::<T>;
the slow path requests pad::<T>() bytes. -/
def alloc_in (a : Arena) (sizeT alignT fuel posFuel : Nat) : Option (Arena × AllocResult) :=
  if a.ro then some (a, .error .readOnly)
  else if sizeT = 0 then some (a, .ok none)
  else
    let alloc := a.header.allocated
    let ptr := get_pointer a alloc
    let ao := align_offset ptr alignT % pow32
    let size := (ao + sizeT) % pow32
    let want := (alloc + size) % pow32
    if want > a.cap then
      (slowLoop a (pad sizeT alignT % pow32) 0 256 fuel posFuel).map (·.2)
    else
      some (bumpTo a want, .ok (some ⟨alloc, size⟩))

/-- Source: Arena::clear (line 459): reset the header and zero cap bytes
starting at write_data_ptr (which already points data_offset bytes past
the region base). -/
def Arena.clear (a : Arena) : Option Arena :=
  if a.ro then none
  else
    let a₁ := { a with header := { a.header with
        allocated := a.dataOffset,
        sentinel := encode_segment_node u32Max u32Max,
        discarded := 0 } }
    some (zero_bytes a₁ 0 a.cap)

/-- The byte range (inclusive start, exclusive end) zeroed by clear:
ptr::write_bytes(write_data_ptr, 0, cap) zeroes cap bytes starting at
base + data_offset. -/
def clearZeroedRange (a : Arena) : Nat × Nat :=
  (dataAddr a, dataAddr a + a.cap)

/-- A fresh writable arena: allocated = data_offset, empty free list,
nothing discarded, empty memory, ghost high-water = allocated. -/
def freshArena (cap dataOffset minSeg maxRetries baseAddr : Nat) : Arena :=
  { header := { sentinel := encode_segment_node u32Max u32Max,
                allocated := dataOffset,
                min_segment_size := minSeg,
                discarded := 0 },
    mem := fun _ => 0,
    cap := cap,
    dataOffset := dataOffset,
    baseAddr := baseAddr,
    maxRetries := maxRetries,
    ro := false,
    hw := dataOffset }

/-- Run a list of alloc_bytes calls in order, collecting the results. -/
def run_alloc_bytes (a : Arena) (fuel posFuel : Nat) :
    List Nat → Option (Arena × List AllocResult)
  | [] => some (a, [])
  | n :: ns =>
    (alloc_bytes_in a n fuel posFuel).bind
      (fun p => (run_alloc_bytes p.1 fuel posFuel ns).map (fun q => (q.1, p.2 :: q.2)))

/-- Walk the free list from the sentinel, collecting for each link the
(offset, size) pair recorded in the word that points at it. -/
def walkLoop (a : Arena) : Option Nat → Nat → Option (List (Nat × Nat))
  | _, 0 => none
  | loc, fuel+1 =>
    let dn := decode_segment_node (loadLoc a loc)
    if dn.1 = u32Max then some []
    else (walkLoop a (some dn.1) fuel).map (fun rest => (dn.1, dn.2) :: rest)

/-- The free list as read from the sentinel. -/
def walk_free_list (a : Arena) (fuel : Nat) : Option (List (Nat × Nat)) :=
  walkLoop a none fuel

/-- Extract the allocation descriptor of a successful non-null result. -/
def resOk : AllocResult → Option Allocated
  | .ok (some al) => some al
  | _ => none

/-- Sum of the segment sizes of a list of (offset, size) pairs. -/
def sumSizes (l : List (Nat × Nat)) : Nat := (l.map Prod.snd).sum

/-- Sum of the sizes of a multiset of (offset, size) pairs. -/
def sumLive (m : Multiset (Nat × Nat)) : Nat := (m.map Prod.snd).sum

/-- Offset of the last segment of a list, if any. -/
def endOffset (l : List (Nat × Nat)) : Option Nat := l.getLast?.map Prod.fst

/-- Offset of the first segment of a list, if any. -/
def headOffset (l : List (Nat × Nat)) : Option Nat := l.head?.map Prod.fst

/-- State of the allocation/deallocation machine used for the byte-conservation
invariant: the arena, the ghost multiset of live (returned and not yet
deallocated) allocations, and the ghost free list, kept as the list of
(offset, size) segments in free-list order. -/
structure C5State where
  arena : Arena
  live : Multiset (Nat × Nat)
  freeSegs : List (Nat × Nat)

/-- One operation of the machine: a successful fast-path alloc_bytes call, or
a dealloc of a live allocation. A dealloc either discards its bytes
(deallocCore returned no insertion position) or splices the segment into
the free list at exactly the position deallocCore's free-list walk
returned, recorded in the ghost list by splitting it at that position. -/
inductive C5Step : C5State → C5State → Prop
  | alloc (s : C5State) (size f pf : Nat) (a' : Arena) (al : Allocated)
      (hsz : 0 < size)
      (hro : s.arena.ro = false)
      (hfast : s.arena.header.allocated + size ≤ s.arena.cap)
      (hrun : alloc_bytes_in s.arena size f pf = some (a', .ok (some al))) :
      C5Step s ⟨a', (al.offset, al.cap) ::ₘ s.live, s.freeSegs⟩
  | deallocDiscard (s : C5State) (off size f pf : Nat) (a' : Arena)
      (hmem : (off, size) ∈ s.live)
      (hrun : deallocCore s.arena off size f pf = some (a', none)) :
      C5Step s ⟨a', s.live.erase (off, size), s.freeSegs⟩
  | deallocInsert (s : C5State) (off size f pf : Nat) (a' : Arena)
      (l₁ l₂ : List (Nat × Nat))
      (hmem : (off, size) ∈ s.live)
      (hsplit : s.freeSegs = l₁ ++ l₂)
      (hrun : deallocCore s.arena off size f pf
                = some (a', some (endOffset l₁, headOffset l₂))) :
      C5Step s ⟨a', s.live.erase (off, size), l₁ ++ (off, size) :: l₂⟩

/-- States reachable from a fresh arena by the machine's operations. -/
inductive C5Reachable : C5State → Prop
  | init (cap doff minSeg retries base : Nat) (hdo : doff ≤ cap) (hcap : cap < pow32) :
      C5Reachable ⟨freshArena cap doff minSeg retries base, 0, []⟩
  | step (s s' : C5State) (h : C5Reachable s) (hs : C5Step s s') : C5Reachable s'

/-- Invariant of the machine: arena well-formedness, the ghost high-water
mark coincides with allocated (no clear is performed), and the byte
conservation equation: live bytes + free-list bytes + discarded bytes
account exactly for the allocated region past data_offset. -/
def C5Inv (s : C5State) : Prop :=
  s.arena.dataOffset ≤ s.arena.header.allocated ∧
  s.arena.header.allocated ≤ s.arena.cap ∧
  s.arena.cap < pow32 ∧
  s.arena.hw = s.arena.header.allocated ∧
  sumLive s.live + sumSizes s.freeSegs + s.arena.header.discarded
    = s.arena.header.allocated - s.arena.dataOffset

/-- The fresh arena of scenarios S1/S2: capacity 64, data_offset 16,
min_segment_size 8, max_retries 1, base address 0 (8-aligned). -/
def s1Arena : Arena := freshArena 64 16 8 1 0

/-- The arena of S1 after both successful calls: bump pointer at 56. -/
def exhaustedArena : Arena :=
  { s1Arena with header := { s1Arena.header with allocated := 56 }, hw := 56 }

/-- The exhausted arena with max_retries = 0 (the C9 edge case). -/
def retry0Arena : Arena := { exhaustedArena with maxRetries := 0 }

/-- A read-only arena. -/
def roArena : Arena := { s1Arena with ro := true }

/-- The arena of scenario S2 right after dealloc(16, 20): free-list head is
the segment (16, 20) whose node word sits at address 32, except that
min_segment_size is raised to 10 so that the 8-byte tail of the upcoming
alloc_bytes(12) fails the minimum-segment-size test. -/
def s2Arena : Arena :=
  { s1Arena with
    header := { sentinel := encode_segment_node 16 20, allocated := 56,
                min_segment_size := 10, discarded := 0 },
    mem := fun addr => if addr = 32 then encode_segment_node u32Max 20 else 0,
    hw := 56 }

/-- A used arena (bump pointer at 56, one free segment recorded, 9 bytes
discarded) on which clear is exercised. -/
def c8start : Arena :=
  { s1Arena with
    header := { sentinel := encode_segment_node 16 20, allocated := 56,
                min_segment_size := 8, discarded := 9 },
    mem := fun addr => if addr = 32 then encode_segment_node u32Max 20 else 0,
    hw := 56 }

/-- The S3 trace: on a fresh arena (capacity 200, data_offset 16, all three
segments valid), dealloc segments of sizes 16, 32 and 24 in that order. -/
def c4trace : Option Arena :=
  ((dealloc (freshArena 200 16 8 1 0) 16 16 5 5).bind
    (fun a => dealloc a 48 32 5 5)).bind
    (fun a => dealloc a 96 24 5 5)

/-- The S2 trace probing the conservation equation: two successful
alloc_bytes(20) calls followed by dealloc(16, 20). -/
def c5trace : Option Arena :=
  (run_alloc_bytes s1Arena 5 5 [20, 20]).bind (fun p => dealloc p.1 16 20 5 5)

/-- The machine state corresponding to s1Arena before any operation. -/
def c5s0 : C5State := ⟨s1Arena, 0, []⟩

/-- The arena after one successful alloc_bytes(20) on s1Arena. -/
def c5s1arena : Arena := bumpTo s1Arena 36

/-- The machine state after that allocation. -/
def c5s1 : C5State := ⟨c5s1arena, (16, 20) ::ₘ 0, []⟩

/-- The arena after dealloc(16, 20) on c5s1arena: the segment is zeroed, its
node word written, and the sentinel swung to it. -/
def c5s2arena : Arena :=
  storeLoc (write_segment_node (zero_bytes c5s1arena 16 20) u32Max 16 20) none
    (encode_segment_node 16 20)

/-- The machine state after that deallocation. -/
def c5s2 : C5State :=
  ⟨c5s2arena, ((16, 20) ::ₘ (0 : Multiset (Nat × Nat))).erase (16, 20), [(16, 20)]⟩

section Helpers

/-- The fast bump path: when allocated + size fits under cap (without u32
overflow), alloc_bytes_in succeeds immediately with offset = old allocated. -/
theorem alloc_bytes_in_fast (a : Arena) (size f pf : Nat)
    (hro : a.ro = false) (hsz : 0 < size)
    (hle : a.header.allocated + size ≤ a.cap) (hcap : a.cap < pow32) :
    alloc_bytes_in a size f pf =
      some (bumpTo a (a.header.allocated + size),
            .ok (some ⟨a.header.allocated, size⟩)) := by
  have hmod : (a.header.allocated + size) % pow32 = a.header.allocated + size :=
    Nat.mod_eq_of_lt (lt_of_le_of_lt hle hcap)
  simp only [alloc_bytes_in, hro, Bool.false_eq_true, if_false, hmod]
  rw [if_neg hsz.ne', if_neg (Nat.not_lt.mpr hle)]

/-- When the free list is empty, the slow path fails at once with
InsufficientSpace carrying remaining() and leaves the arena unchanged. -/
theorem alloc_slow_path_empty (a : Arena) (size sp pf : Nat)
    (hro : a.ro = false)
    (hdec : decode_segment_node a.header.sentinel = (u32Max, u32Max)) :
    alloc_slow_path a size sp pf =
      some (a, .error (.insufficientSpace (size % pow32) (a.remaining % pow32))) := by
  simp [alloc_slow_path, hro, hdec]

/-- The slow-path retry loop, when each attempt fails with the same error and
an unchanged arena, makes retryTarget + 1 - i further attempts starting
from counter value i and then returns that error. -/
theorem slowLoop_error (a : Arena) (size sp pf : Nat) (e : AError)
    (hsp : alloc_slow_path a size sp pf = some (a, .error e)) :
    ∀ fuel i, i ≤ retryTarget a.maxRetries →
      retryTarget a.maxRetries + 1 - i ≤ fuel →
      slowLoop a size i fuel sp pf
        = some (retryTarget a.maxRetries + 1 - i, a, .error e) := by
  intro fuel
  induction fuel with
  | zero => intro i hi hf; omega
  | succ n ih =>
    intro i hi hf
    rw [slowLoop, hsp]
    dsimp only
    by_cases hit : i = retryTarget a.maxRetries
    · rw [if_pos hit]
      subst hit
      simp
    · rw [if_neg hit]
      rw [ih (i+1) (by omega) (by omega)]
      simp only [Option.map_some']
      congr 2
      omega

/-- When the bump path is exhausted and every slow-path attempt fails with the
same error leaving the arena unchanged, alloc_bytes_in returns that error. -/
theorem alloc_bytes_in_slow_err (a : Arena) (size f pf : Nat) (e : AError)
    (hro : a.ro = false) (hsz : 0 < size)
    (hwant : a.cap < (a.header.allocated + size) % pow32)
    (hsp : alloc_slow_path a size f pf = some (a, .error e)) :
    alloc_bytes_in a size f pf = some (a, .error e) := by
  have htgt : retryTarget a.maxRetries < 256 := Nat.mod_lt _ (by omega)
  have h := slowLoop_error a size f pf e hsp 256 0 (Nat.zero_le _) (by omega)
  simp only [alloc_bytes_in, hro, Bool.false_eq_true, if_false]
  rw [if_neg hsz.ne', if_pos hwant, h]
  rfl

/-- deallocBody never touches the header's allocated, discarded and
min_segment_size fields, nor the arena's constants. -/
theorem deallocBody_frame (offset size : Nat) :
    ∀ (fuel : Nat) (a : Arena) (pf : Nat) (a' : Arena) (pos : Option Nat × Option Nat),
      deallocBody a offset size fuel pf = some (a', pos) →
      a'.header.allocated = a.header.allocated ∧
      a'.header.discarded = a.header.discarded ∧
      a'.header.min_segment_size = a.header.min_segment_size ∧
      a'.cap = a.cap ∧ a'.dataOffset = a.dataOffset ∧
      a'.baseAddr = a.baseAddr ∧ a'.ro = a.ro ∧ a'.hw = a.hw ∧
      a'.maxRetries = a.maxRetries := by
  intro fuel
  induction fuel with
  | zero => intro a pf a' pos h; exact absurd h (by simp [deallocBody])
  | succ n ih =>
    intro a pf a' pos h
    rw [deallocBody] at h
    cases hfp : find_free_list_position a size pf with
    | none => rw [hfp] at h; exact absurd h (by simp)
    | some p =>
      obtain ⟨prev, next⟩ := p
      rw [hfp] at h
      dsimp only at h
      by_cases hz : (decode_segment_node
          (loadLoc (write_segment_node a (next.getD u32Max) offset size) prev)).2 = 0
      · rw [if_pos hz] at h
        have := ih _ pf a' pos h
        simpa [write_segment_node] using this
      · rw [if_neg hz] at h
        obtain ⟨ha, -⟩ := Prod.mk.injEq .. ▸ Option.some.inj h
        subst ha
        cases prev <;> simp [storeLoc, write_segment_node]

end Helpers

section C5Machinery

/-- deallocCore returns no position exactly on the discard branch, where the
arena only gets its discarded counter bumped. -/
theorem deallocCore_discard_eq (a : Arena) (off size f pf : Nat) (a' : Arena)
    (h : deallocCore a off size f pf = some (a', none)) :
    validate_segment a off size = false ∧ a' = a.discard size := by
  rw [deallocCore] at h
  by_cases hv : validate_segment a off size = false
  · rw [if_pos hv] at h
    simp only [Option.some.injEq, Prod.mk.injEq] at h
    exact ⟨hv, h.1.symm⟩
  · rw [if_neg hv] at h
    cases hb : deallocBody (zero_bytes a off size) off size f pf with
    | none => rw [hb] at h; exact absurd h (by simp)
    | some q => rw [hb] at h; exact absurd h (by simp)

/-- On the insert branch, deallocCore leaves the header counters and arena
constants unchanged (it only writes memory words and the sentinel). -/
theorem deallocCore_insert_frame (a : Arena) (off size f pf : Nat) (a' : Arena)
    (pos : Option Nat × Option Nat)
    (h : deallocCore a off size f pf = some (a', some pos)) :
    validate_segment a off size = true ∧
    a'.header.allocated = a.header.allocated ∧
    a'.header.discarded = a.header.discarded ∧
    a'.header.min_segment_size = a.header.min_segment_size ∧
    a'.cap = a.cap ∧ a'.dataOffset = a.dataOffset ∧
    a'.baseAddr = a.baseAddr ∧ a'.ro = a.ro ∧ a'.hw = a.hw ∧
    a'.maxRetries = a.maxRetries := by
  rw [deallocCore] at h
  by_cases hv : validate_segment a off size = false
  · rw [if_pos hv] at h
    exact absurd h (by simp)
  · rw [if_neg hv] at h
    cases hb : deallocBody (zero_bytes a off size) off size f pf with
    | none => rw [hb] at h; exact absurd h (by simp)
    | some q =>
      rw [hb] at h
      simp only [Option.map_some'] at h
      obtain ⟨ha, -⟩ := Prod.mk.injEq .. ▸ Option.some.inj h
      subst ha
      have hf := deallocBody_frame off size f (zero_bytes a off size) pf q.1 q.2 hb
      constructor
      · exact eq_true_of_ne_false hv
      · simpa [zero_bytes] using hf

/-- Size extraction: an element of the live multiset contributes its size to
the sum, and erasing it removes exactly that contribution. -/
theorem sumLive_erase (m : Multiset (Nat × Nat)) (x : Nat × Nat) (hx : x ∈ m) :
    x.2 ≤ sumLive m ∧ sumLive (m.erase x) = sumLive m - x.2 := by
  have hc : x ::ₘ m.erase x = m := Multiset.cons_erase hx
  have : sumLive m = x.2 + sumLive (m.erase x) := by
    conv_lhs => rw [← hc]
    rw [sumLive, Multiset.map_cons, Multiset.sum_cons]
    rfl
  omega

/-- Every machine step preserves the invariant. -/
theorem C5Inv_step (s s' : C5State) (hs : C5Step s s') (hinv : C5Inv s) : C5Inv s' := by
  obtain ⟨hdo, hA, hcap, hhw, heq⟩ := hinv
  cases hs with
  | alloc size f pf a' al hsz hro hfast hrun =>
    rw [alloc_bytes_in_fast s.arena size f pf hro hsz hfast hcap] at hrun
    obtain ⟨ha, hr⟩ := Prod.mk.injEq .. ▸ Option.some.inj hrun
    obtain rfl : al = ⟨s.arena.header.allocated, size⟩ :=
      (Option.some.inj (AllocResult.ok.inj hr)).symm
    subst ha
    refine ⟨by simpa [bumpTo] using by omega, by simpa [bumpTo] using hfast,
      by simpa [bumpTo] using hcap, ?_, ?_⟩
    · simp [bumpTo, hhw]
    · simp only [bumpTo, sumLive, Multiset.map_cons, Multiset.sum_cons] at heq ⊢
      omega
  | deallocDiscard off size f pf a' hmem hrun =>
    obtain ⟨-, ha⟩ := deallocCore_discard_eq s.arena off size f pf a' hrun
    subst ha
    obtain ⟨hle, herase⟩ := sumLive_erase s.live (off, size) hmem
    have hnw : s.arena.header.discarded + size < pow32 := by omega
    refine ⟨by simpa [Arena.discard] using hdo, by simpa [Arena.discard] using hA,
      by simpa [Arena.discard] using hcap, by simpa [Arena.discard] using hhw, ?_⟩
    simp only [Arena.discard, Nat.mod_eq_of_lt hnw]
    change sumLive (s.live.erase (off, size)) + sumSizes s.freeSegs +
      (s.arena.header.discarded + size) = s.arena.header.allocated - s.arena.dataOffset
    omega
  | deallocInsert off size f pf a' l₁ l₂ hmem hsplit hrun =>
    obtain ⟨-, h1, h2, -, h4, h5, -, -, h8, -⟩ :=
      deallocCore_insert_frame s.arena off size f pf a' _ hrun
    obtain ⟨hle, herase⟩ := sumLive_erase s.live (off, size) hmem
    have hsum : sumSizes (l₁ ++ (off, size) :: l₂) = sumSizes l₁ + size + sumSizes l₂ := by
      simp [sumSizes]
      omega
    have hsplitsum : sumSizes s.freeSegs = sumSizes l₁ + sumSizes l₂ := by
      rw [hsplit]; simp [sumSizes]
    refine ⟨by rw [h1, h5]; exact hdo, by rw [h1, h4]; exact hA,
      by rw [h4]; exact hcap, by rw [h8, h1]; exact hhw, ?_⟩
    rw [h1, h2, h5, hsum, herase]
    omega

/-- Every reachable machine state satisfies the invariant. -/
theorem C5Reachable_inv (s : C5State) (h : C5Reachable s) : C5Inv s := by
  induction h with
  | init cap doff minSeg retries base hdo hcap =>
    refine ⟨le_refl _, hdo, hcap, rfl, ?_⟩
    simp [sumLive, sumSizes, freshArena]
  | step s s' h hs ih => exact C5Inv_step s s' hs ih

end C5Machinery

section MoreHelpers

/-- One successful slow-path attempt ends the retry loop at once. -/
theorem slowLoop_ok (a : Arena) (size i f pf fuel : Nat) (a₃ : Arena) (r : Option Allocated)
    (hsp : alloc_slow_path a size f pf = some (a₃, .ok r)) :
    slowLoop a size i (fuel + 1) f pf = some (1, a₃, .ok r) := by
  rw [slowLoop, hsp]

/-- A diverging slow-path attempt makes the retry loop diverge. -/
theorem slowLoop_none (a : Arena) (size i f pf fuel : Nat)
    (hsp : alloc_slow_path a size f pf = none) :
    slowLoop a size i (fuel + 1) f pf = none := by
  rw [slowLoop, hsp]

/-- The pop performed by the slow path when the recorded head (next, ns) is
not the empty marker, is not tombstoned and can hold the request: the
sentinel is swung to the head node's own word, the leading size bytes are
returned as the allocation, and the tail is handed to dealloc. -/
theorem alloc_slow_path_pop (a : Arena) (size f pf : Nat)
    (hro : a.ro = false)
    (hne : ¬((decode_segment_node a.header.sentinel).1 = u32Max ∧
             (decode_segment_node a.header.sentinel).2 = u32Max))
    (hns : (decode_segment_node a.header.sentinel).2 ≠ 0)
    (hge : size ≤ (decode_segment_node a.header.sentinel).2) :
    alloc_slow_path a size f pf =
      (dealloc
          { a with header := { a.header with
              sentinel := get_segment_node a (decode_segment_node a.header.sentinel).1 } }
          (((decode_segment_node a.header.sentinel).1 + size) % pow32)
          ((decode_segment_node a.header.sentinel).2 - size) f pf).map
        (fun a₃ => (a₃, .ok (some ⟨(decode_segment_node a.header.sentinel).1, size⟩))) := by
  rw [alloc_slow_path]
  rw [if_neg (by simp [hro]), if_neg hne, if_neg hns, if_neg (Nat.not_lt.mpr hge)]

/-- Aligning an address up by align_offset lands on a multiple of align. -/
theorem align_offset_dvd (addr align : Nat) (h : 0 < align) :
    align ∣ (addr + align_offset addr align) := by
  unfold align_offset
  rcases Nat.eq_zero_or_pos (addr % align) with h0 | hpos
  · rw [h0, Nat.sub_zero, Nat.mod_self, Nat.add_zero]
    exact Nat.dvd_of_mod_eq_zero h0
  · have hlt : align - addr % align < align := by
      have := Nat.mod_lt addr h
      omega
    rw [Nat.mod_eq_of_lt hlt]
    have hq := Nat.div_add_mod addr align
    have hr := Nat.mod_lt addr h
    exact ⟨addr / align + 1, by rw [Nat.mul_add, Nat.mul_one]; omega⟩

/-- Running a list of alloc_bytes calls on an arena with an empty free list:
the free list stays empty, the bump pointer is monotone and bounded by
cap, every successful descriptor sits between the starting bump pointer
and the final one, and the descriptors are returned in address order. -/
theorem run_alloc_spec (f pf : Nat) :
    ∀ (sizes : List Nat) (a a' : Arena) (rs : List AllocResult),
      a.ro = false →
      decode_segment_node a.header.sentinel = (u32Max, u32Max) →
      a.header.allocated ≤ a.cap →
      2 * a.cap < pow32 →
      (∀ n ∈ sizes, n ≤ a.cap) →
      run_alloc_bytes a f pf sizes = some (a', rs) →
      a'.cap = a.cap ∧ a'.dataOffset = a.dataOffset ∧ a'.ro = a.ro ∧
      decode_segment_node a'.header.sentinel = (u32Max, u32Max) ∧
      a.header.allocated ≤ a'.header.allocated ∧ a'.header.allocated ≤ a.cap ∧
      (∀ r ∈ rs, ∀ al, resOk r = some al →
        a.header.allocated ≤ al.offset ∧ al.offset + al.cap ≤ a'.header.allocated) ∧
      rs.Pairwise (fun r₁ r₂ => ∀ al₁ al₂, resOk r₁ = some al₁ → resOk r₂ = some al₂ →
        al₁.offset + al₁.cap ≤ al₂.offset) := by
  intro sizes
  induction sizes with
  | nil =>
    intro a a' rs hro hsent hA hcap hsz hrun
    simp only [run_alloc_bytes, Option.some.injEq, Prod.mk.injEq] at hrun
    obtain ⟨rfl, rfl⟩ := hrun
    exact ⟨rfl, rfl, rfl, hsent, le_refl _, hA, by simp [resOk], List.Pairwise.nil⟩
  | cons n ns ih =>
    intro a a' rs hro hsent hA hcap hsz hrun
    rw [run_alloc_bytes] at hrun
    by_cases h0 : n = 0
    · subst h0
      have hz : alloc_bytes_in a 0 f pf = some (a, .ok none) := by
        simp [alloc_bytes_in, hro]
      rw [hz] at hrun
      simp only [Option.some_bind] at hrun
      cases hr : run_alloc_bytes a f pf ns with
      | none => rw [hr] at hrun; exact absurd hrun (by simp)
      | some q =>
        rw [hr] at hrun
        simp only [Option.map_some', Option.some.injEq, Prod.mk.injEq] at hrun
        obtain ⟨rfl, rfl⟩ := hrun
        obtain ⟨h1, h2, h3, h4, h5, h6, h7, h8⟩ :=
          ih a q.1 q.2 hro hsent hA hcap (fun m hm => hsz m (List.mem_cons_of_mem _ hm)) hr
        refine ⟨h1, h2, h3, h4, h5, h6, ?_, ?_⟩
        · intro r hr' al hal
          rcases List.mem_cons.mp hr' with rfl | hmem
          · exact absurd hal (by simp [resOk])
          · exact h7 r hmem al hal
        · exact List.Pairwise.cons (fun r hmem al₁ al₂ h₁ _ => absurd h₁ (by simp [resOk])) h8
    · have hpos : 0 < n := Nat.pos_of_ne_zero h0
      have hn : n ≤ a.cap := hsz n (List.mem_cons_self n ns)
      by_cases hfit : a.header.allocated + n ≤ a.cap
      · rw [alloc_bytes_in_fast a n f pf hro hpos hfit (by omega)] at hrun
        simp only [Option.some_bind] at hrun
        cases hr : run_alloc_bytes (bumpTo a (a.header.allocated + n)) f pf ns with
        | none => rw [hr] at hrun; exact absurd hrun (by simp)
        | some q =>
          rw [hr] at hrun
          simp only [Option.map_some', Option.some.injEq, Prod.mk.injEq] at hrun
          obtain ⟨rfl, rfl⟩ := hrun
          obtain ⟨h1, h2, h3, h4, h5, h6, h7, h8⟩ :=
            ih (bumpTo a (a.header.allocated + n)) q.1 q.2 (by simp [bumpTo, hro])
              (by simpa [bumpTo] using hsent) (by simpa [bumpTo] using hfit)
              (by simpa [bumpTo] using hcap)
              (fun m hm => by
                simpa [bumpTo] using hsz m (List.mem_cons_of_mem _ hm)) hr
          simp only [bumpTo] at h1 h2 h3 h5 h6
          refine ⟨h1, h2, h3, h4, by omega, h6, ?_, ?_⟩
          · intro r hr' al hal
            rcases List.mem_cons.mp hr' with rfl | hmem
            · obtain rfl : al = ⟨a.header.allocated, n⟩ := by
                simpa [resOk] using hal.symm
              refine ⟨le_refl _, ?_⟩
              show a.header.allocated + n ≤ q.1.header.allocated
              omega
            · obtain ⟨hb1, hb2⟩ := h7 r hmem al hal
              simp only [bumpTo] at hb1
              exact ⟨by omega, hb2⟩
          · refine List.Pairwise.cons ?_ h8
            intro r hmem al₁ al₂ h₁ h₂
            obtain rfl : al₁ = ⟨a.header.allocated, n⟩ := by
              simpa [resOk] using h₁.symm
            obtain ⟨hb1, _⟩ := h7 r hmem al₂ h₂
            simp only [bumpTo] at hb1
            exact hb1
      · have hwant : a.cap < (a.header.allocated + n) % pow32 := by
          rw [Nat.mod_eq_of_lt (by omega)]
          omega
        have hsp := alloc_slow_path_empty a n f pf hro hsent
        have herr := alloc_bytes_in_slow_err a n f pf _ hro hpos hwant hsp
        rw [herr] at hrun
        simp only [Option.some_bind] at hrun
        cases hr : run_alloc_bytes a f pf ns with
        | none => rw [hr] at hrun; exact absurd hrun (by simp)
        | some q =>
          rw [hr] at hrun
          simp only [Option.map_some', Option.some.injEq, Prod.mk.injEq] at hrun
          obtain ⟨rfl, rfl⟩ := hrun
          obtain ⟨h1, h2, h3, h4, h5, h6, h7, h8⟩ :=
            ih a q.1 q.2 hro hsent hA hcap (fun m hm => hsz m (List.mem_cons_of_mem _ hm)) hr
          refine ⟨h1, h2, h3, h4, h5, h6, ?_, ?_⟩
          · intro r hr' al hal
            rcases List.mem_cons.mp hr' with rfl | hmem
            · exact absurd hal (by simp [resOk])
            · exact h7 r hmem al hal
          · exact List.Pairwise.cons (fun r hmem al₁ al₂ h₁ _ => absurd h₁ (by simp [resOk])) h8

end MoreHelpers

section Claims

/-- C1 (amended): for every sequence of alloc_bytes calls on a writable arena
with an empty free list in which every call succeeds, provided no request
exceeds the capacity and 2 * capacity < 2^32 (so that the u32 addition
allocated + size cannot wrap), the returned descriptors denote pairwise
disjoint byte ranges that all lie within the region
from data_offset to capacity. -/
theorem c1_disjoint_ranges (a a' : Arena) (sizes : List Nat) (rs : List AllocResult)
    (f pf : Nat)
    (hro : a.ro = false)
    (hsent : decode_segment_node a.header.sentinel = (u32Max, u32Max))
    (hdo : a.dataOffset ≤ a.header.allocated)
    (hA : a.header.allocated ≤ a.cap)
    (hcap : 2 * a.cap < pow32)
    (hsz : ∀ n ∈ sizes, n ≤ a.cap)
    (hrun : run_alloc_bytes a f pf sizes = some (a', rs))
    (hallok : ∀ r ∈ rs, ∃ res, r = .ok res) :
    (∀ r ∈ rs, ∀ al, resOk r = some al →
      a.dataOffset ≤ al.offset ∧ al.offset + al.cap ≤ a.cap) ∧
    rs.Pairwise (fun r₁ r₂ => ∀ al₁ al₂, resOk r₁ = some al₁ → resOk r₂ = some al₂ →
      al₁.offset + al₁.cap ≤ al₂.offset ∨ al₂.offset + al₂.cap ≤ al₁.offset) := by
  obtain ⟨-, -, -, -, -, hAmax, hper, hpw⟩ :=
    run_alloc_spec f pf sizes a a' rs hro hsent hA hcap hsz hrun
  constructor
  · intro r hr al hal
    obtain ⟨h1, h2⟩ := hper r hr al hal
    exact ⟨le_trans hdo h1, le_trans h2 hAmax⟩
  · exact hpw.imp (fun h al₁ al₂ h1 h2 => Or.inl (h al₁ al₂ h1 h2))

/-- Witness for C1 on scenario S1's two successful calls. -/
theorem c1_disjoint_ranges_witness :
    (∀ r ∈ [AllocResult.ok (some ⟨16, 20⟩), AllocResult.ok (some ⟨36, 20⟩)],
      ∀ al, resOk r = some al →
        s1Arena.dataOffset ≤ al.offset ∧ al.offset + al.cap ≤ s1Arena.cap) ∧
    List.Pairwise (fun r₁ r₂ => ∀ al₁ al₂, resOk r₁ = some al₁ → resOk r₂ = some al₂ →
        al₁.offset + al₁.cap ≤ al₂.offset ∨ al₂.offset + al₂.cap ≤ al₁.offset)
      [AllocResult.ok (some ⟨16, 20⟩), AllocResult.ok (some ⟨36, 20⟩)] := by
  refine c1_disjoint_ranges s1Arena (bumpTo (bumpTo s1Arena 36) 56) [20, 20]
    [AllocResult.ok (some ⟨16, 20⟩), AllocResult.ok (some ⟨36, 20⟩)] 3 3
    rfl rfl (by decide) (by decide) (by decide) (by decide) rfl ?_
  intro r hr
  rcases List.mem_cons.mp hr with rfl | hr
  · exact ⟨_, rfl⟩
  · rcases List.mem_cons.mp hr with rfl | hr
    · exact ⟨_, rfl⟩
    · cases hr

/-- Counterexample to C1 as stated: on a fresh writable arena of capacity 64
and data_offset 16, the single call alloc_bytes(4294967295) succeeds (the
u32 computation allocated + size wraps to 15, which passes the capacity
check), yet its byte range of 4294967295 bytes starting at offset 16 does
not lie within the capacity. -/
theorem c1_counterexample :
    (run_alloc_bytes s1Arena 1 1 [4294967295]).map
        (fun p => (p.2, p.1.header.allocated))
      = some ([.ok (some ⟨16, 4294967295⟩)], 15) ∧
    ¬(16 + 4294967295 ≤ s1Arena.cap) := ⟨by decide, by decide⟩

/-- C2: on a writable arena, whenever allocated + size fits below capacity
(and size > 0), alloc_bytes succeeds on the fast path with offset = the
previous allocated value and cap = size, leaving allocated = offset +
size; and scenario S1: on a fresh region with data_offset 16, capacity 64,
three alloc_bytes(20) calls return offsets 16 and 36 and then fail with
InsufficientSpace requesting 20 with 8 available. -/
theorem c2_fast_path_and_s1 :
    (∀ (a : Arena) (size f pf : Nat), a.ro = false → 0 < size →
      a.header.allocated + size ≤ a.cap → a.cap < pow32 →
      alloc_bytes_in a size f pf =
        some (bumpTo a (a.header.allocated + size),
              .ok (some ⟨a.header.allocated, size⟩)) ∧
      (bumpTo a (a.header.allocated + size)).header.allocated
        = a.header.allocated + size) ∧
    (run_alloc_bytes s1Arena 1 1 [20, 20, 20]).map
        (fun p => (p.2, p.1.header.allocated))
      = some ([.ok (some ⟨16, 20⟩), .ok (some ⟨36, 20⟩),
               .error (.insufficientSpace 20 8)], 56) := by
  constructor
  · intro a size f pf hro hsz hle hcap
    exact ⟨alloc_bytes_in_fast a size f pf hro hsz hle hcap, rfl⟩
  · decide

/-- Witness for C2's fast-path statement on the fresh S1 arena. -/
theorem c2_fast_path_witness :
    alloc_bytes_in s1Arena 20 3 3 =
      some (bumpTo s1Arena (s1Arena.header.allocated + 20),
            .ok (some ⟨s1Arena.header.allocated, 20⟩)) ∧
    (bumpTo s1Arena (s1Arena.header.allocated + 20)).header.allocated
      = s1Arena.header.allocated + 20 :=
  c2_fast_path_and_s1.1 s1Arena 20 3 3 rfl (by decide) (by decide) (by decide)

/-- C3: when the sentinel records head (next, ns) (neither empty nor
tombstoned) and the request fits (size ≤ ns), the slow path removes the
head (swinging the sentinel to the head node's own word), returns the
allocation (offset = next, cap = size), and hands the tail to
dealloc(next + size, ns - size); when that tail is below the minimum
segment size it is discarded, increasing discarded by its length. -/
theorem c3_slow_path_pop_spec (a : Arena) (size f pf next ns : Nat)
    (hro : a.ro = false)
    (hd : decode_segment_node a.header.sentinel = (next, ns))
    (hne : ¬(next = u32Max ∧ ns = u32Max))
    (hns : ns ≠ 0) (hge : size ≤ ns) :
    alloc_slow_path a size f pf =
      (dealloc { a with header := { a.header with sentinel := get_segment_node a next } }
          ((next + size) % pow32) (ns - size) f pf).map
        (fun a₃ => (a₃, .ok (some ⟨next, size⟩))) ∧
    (ns - size < a.header.min_segment_size →
      alloc_slow_path a size f pf =
        some ((({ a with header :=
            { a.header with sentinel := get_segment_node a next } } : Arena).discard
              (ns - size)),
          .ok (some ⟨next, size⟩)) ∧
      ((({ a with header :=
          { a.header with sentinel := get_segment_node a next } } : Arena).discard
            (ns - size))).header.discarded
        = (a.header.discarded + (ns - size)) % pow32) := by
  have hne' : ¬((decode_segment_node a.header.sentinel).1 = u32Max ∧
      (decode_segment_node a.header.sentinel).2 = u32Max) := by
    rw [hd]; exact hne
  have hns' : (decode_segment_node a.header.sentinel).2 ≠ 0 := by
    rw [hd]; exact hns
  have hge' : size ≤ (decode_segment_node a.header.sentinel).2 := by
    rw [hd]; exact hge
  have h1 := alloc_slow_path_pop a size f pf hro hne' hns' hge'
  simp only [hd] at h1
  refine ⟨h1, fun htail => ?_⟩
  have hval : validate_segment
      { a with header := { a.header with sentinel := get_segment_node a next } }
      ((next + size) % pow32) (ns - size) = false := by
    rw [validate_segment]
    by_cases hw : ns - size ≤
        align_offset (dataAddr { a with header :=
          { a.header with sentinel := get_segment_node a next } } +
          (next + size) % pow32) 8 + 8 + 4
    · rw [if_pos hw]
    · rw [if_neg hw, if_pos htail]
  have hdeal : dealloc
      { a with header := { a.header with sentinel := get_segment_node a next } }
      ((next + size) % pow32) (ns - size) f pf =
      some (({ a with header :=
        { a.header with sentinel := get_segment_node a next } } : Arena).discard
          (ns - size)) := by
    rw [dealloc, deallocCore, if_pos hval]
    rfl
  rw [hdeal] at h1
  simp only [Option.map_some'] at h1
  exact ⟨h1, by simp [Arena.discard]⟩

/-- Witness for C3 on the S2 state (head (16, 20), request 12, tail 8 below
the minimum segment size 10, hence discarded). -/
theorem c3_slow_path_pop_witness :
    alloc_slow_path s2Arena 12 3 3 =
      (dealloc { s2Arena with header :=
          { s2Arena.header with sentinel := get_segment_node s2Arena 16 } }
          ((16 + 12) % pow32) (20 - 12) 3 3).map
        (fun a₃ => (a₃, .ok (some ⟨16, 12⟩))) ∧
    alloc_slow_path s2Arena 12 3 3 =
      some ((({ s2Arena with header :=
          { s2Arena.header with sentinel := get_segment_node s2Arena 16 } } : Arena).discard
            (20 - 12)),
        .ok (some ⟨16, 12⟩)) := by
  have h := c3_slow_path_pop_spec s2Arena 12 3 3 16 20 rfl rfl (by decide) (by decide)
    (by decide)
  exact ⟨h.1, (h.2 (by decide)).1⟩

/-- C10: on a read-only arena alloc_bytes fails with ReadOnly for every size
(the check precedes the zero-size short-circuit), so the null descriptor
for size 0 is only ever produced on a writable arena. -/
theorem c10_readonly_first :
    (∀ (a : Arena) (size f pf : Nat), a.ro = true →
      alloc_bytes_in a size f pf = some (a, .error .readOnly)) ∧
    (∀ (a : Arena) (f pf : Nat) (s' : Arena),
      alloc_bytes_in a 0 f pf = some (s', .ok none) → a.ro = false) := by
  constructor
  · intro a size f pf hro
    simp [alloc_bytes_in, hro]
  · intro a f pf s' h
    by_cases hro : a.ro = true
    · rw [(show alloc_bytes_in a 0 f pf = some (a, .error .readOnly) by
        simp [alloc_bytes_in, hro])] at h
      simp at h
    · exact Bool.not_eq_true _ ▸ hro

/-- Witness for C10 on a concrete read-only arena at size 0. -/
theorem c10_readonly_first_witness :
    alloc_bytes_in roArena 0 1 1 = some (roArena, .error .readOnly) :=
  c10_readonly_first.1 roArena 0 1 1 rfl

end Claims

section ClaimsTwo

/-- C4 (code bug, S3 trace): deallocating valid segments of sizes 16, 32, 24
on a fresh arena leaves the free list, walked from the sentinel, as the
nodes at offsets 48, 16, 96 with recorded sizes 32, 32, 24: the size-24
segment (offset 96) is inserted at the tail, after the size-16 segment
(offset 16), instead of between the 32- and 16-byte segments, and the
walked size recorded for the node at 16 is 32, not the 16 bytes that were
deallocated there. The spec requires walked sizes 32, 24, 16. -/
theorem c4_insertion_order_violated :
    (c4trace.bind (fun a => walk_free_list a 10))
      = some [(48, 32), (16, 32), (96, 24)] ∧
    (c4trace.bind (fun a => walk_free_list a 10)).map (fun l => l.map Prod.fst)
      = some [48, 16, 96] := ⟨by decide, by decide⟩

/-- C5 (amended): over sequences of successful fast-path alloc_bytes calls
and dealloc calls that each free a previously returned, still-live
allocation, the outstanding live bytes plus the free-list segment sizes
plus discarded equal allocated - data_offset; and (absent clear) allocated
coincides with the high-water mark of the allocated counter. -/
theorem c5_byte_conservation (s : C5State) (h : C5Reachable s) :
    sumLive s.live + sumSizes s.freeSegs + s.arena.header.discarded
      = s.arena.header.allocated - s.arena.dataOffset ∧
    s.arena.hw = s.arena.header.allocated := by
  obtain ⟨-, -, -, h4, h5⟩ := C5Reachable_inv s h
  exact ⟨h5, h4⟩

/-- Witness for C5: fresh arena, one alloc_bytes(20), then dealloc(16, 20). -/
theorem c5_byte_conservation_witness :
    sumLive c5s2.live + sumSizes c5s2.freeSegs + c5s2.arena.header.discarded
      = c5s2.arena.header.allocated - c5s2.arena.dataOffset ∧
    c5s2.arena.hw = c5s2.arena.header.allocated := by
  refine c5_byte_conservation c5s2 ?_
  have h0 : C5Reachable c5s0 := C5Reachable.init 64 16 8 1 0 (by omega) (by decide)
  have h1 : C5Step c5s0 c5s1 :=
    C5Step.alloc c5s0 20 3 3 c5s1arena ⟨16, 20⟩ (by omega) rfl (by decide) rfl
  have h2 : C5Step c5s1 c5s2 :=
    C5Step.deallocInsert c5s1 16 20 3 3 c5s2arena [] [] (by decide) rfl rfl
  exact C5Reachable.step c5s1 c5s2 (C5Reachable.step c5s0 c5s1 h0 h1) h2

/-- Counterexample to C5 as stated: after S1's first two successful
alloc_bytes(20) calls and dealloc(16, 20), allocated (56) plus the
free-list sizes (20) plus discarded (0) is 76, while the high-water mark
of allocated is 56: dealloc never decreases allocated, so the spec's
equation fails as soon as anything is freed. -/
theorem c5_counterexample :
    c5trace.map (fun a => (a.header.allocated,
        sumSizes ((walk_free_list a 10).getD []), a.header.discarded, a.hw))
      = some (56, 20, 0, 56) ∧ 56 + 20 + 0 ≠ 56 := ⟨by decide, by decide⟩

/-- C6: on a writable arena with a well-formed sentinel (empty marker, or a
head record that is not tombstoned), alloc_bytes fails with
InsufficientSpace exactly when the bump path would exceed capacity and the
free list is empty or its head record is smaller than the request; the
reported available is remaining() in the empty case (sentinel decoding to
(u32::MAX, u32::MAX)) and the head record's size otherwise. -/
theorem c6_insufficient_space_iff (a : Arena) (size f pf : Nat)
    (hro : a.ro = false) (hsz : 0 < size)
    (hcap : a.cap < pow32) (hnw : a.header.allocated + size < pow32)
    (hstate : decode_segment_node a.header.sentinel = (u32Max, u32Max) ∨
      (decode_segment_node a.header.sentinel).2 ≠ 0) :
    ((∃ s' req avail, alloc_bytes_in a size f pf
        = some (s', .error (.insufficientSpace req avail)))
      ↔ (a.cap < a.header.allocated + size ∧
         (decode_segment_node a.header.sentinel = (u32Max, u32Max) ∨
          (decode_segment_node a.header.sentinel).2 < size))) ∧
    (∀ s' req avail, alloc_bytes_in a size f pf
        = some (s', .error (.insufficientSpace req avail)) →
      req = size ∧
      avail = (if decode_segment_node a.header.sentinel = (u32Max, u32Max)
               then a.remaining else (decode_segment_node a.header.sentinel).2)) := by
  have hmod : (a.header.allocated + size) % pow32 = a.header.allocated + size :=
    Nat.mod_eq_of_lt hnw
  have hszlt : size % pow32 = size := Nat.mod_eq_of_lt (by omega)
  by_cases hfit : a.header.allocated + size ≤ a.cap
  · have hfast := alloc_bytes_in_fast a size f pf hro hsz hfit hcap
    constructor
    · constructor
      · rintro ⟨s', req, avail, h⟩
        rw [hfast] at h
        simp at h
      · rintro ⟨hgt, -⟩
        omega
    · intro s' req avail h
      rw [hfast] at h
      simp at h
  · have hgt : a.cap < a.header.allocated + size := by omega
    have hwant : a.cap < (a.header.allocated + size) % pow32 := by
      rw [hmod]; exact hgt
    by_cases hemp : decode_segment_node a.header.sentinel = (u32Max, u32Max)
    · have hsp := alloc_slow_path_empty a size f pf hro hemp
      have herr := alloc_bytes_in_slow_err a size f pf _ hro hsz hwant hsp
      have hrem : a.remaining % pow32 = a.remaining := by
        have h1 : a.remaining ≤ a.cap := Nat.sub_le _ _
        exact Nat.mod_eq_of_lt (by omega)
      constructor
      · exact ⟨fun _ => ⟨hgt, Or.inl hemp⟩,
          fun _ => ⟨a, size % pow32, a.remaining % pow32, herr⟩⟩
      · intro s' req avail h
        rw [herr] at h
        simp only [Option.some.injEq, Prod.mk.injEq, AllocResult.error.injEq,
          AError.insufficientSpace.injEq] at h
        obtain ⟨-, hreq, havail⟩ := h
        rw [if_pos hemp]
        exact ⟨hreq ▸ hszlt, havail ▸ hrem⟩
    · have hns : (decode_segment_node a.header.sentinel).2 ≠ 0 :=
        hstate.resolve_left hemp
      have hne : ¬((decode_segment_node a.header.sentinel).1 = u32Max ∧
          (decode_segment_node a.header.sentinel).2 = u32Max) := by
        intro hand
        exact hemp (Prod.ext hand.1 hand.2)
      by_cases hsmall : (decode_segment_node a.header.sentinel).2 < size
      · have hsp : alloc_slow_path a size f pf =
            some (a, .error (.insufficientSpace (size % pow32)
              (decode_segment_node a.header.sentinel).2)) := by
          simp only [alloc_slow_path, hro, Bool.false_eq_true, if_false]
          rw [if_neg hne, if_neg hns, if_pos hsmall]
        have herr := alloc_bytes_in_slow_err a size f pf _ hro hsz hwant hsp
        constructor
        · exact ⟨fun _ => ⟨hgt, Or.inr hsmall⟩, fun _ => ⟨a, _, _, herr⟩⟩
        · intro s' req avail h
          rw [herr] at h
          simp only [Option.some.injEq, Prod.mk.injEq, AllocResult.error.injEq,
            AError.insufficientSpace.injEq] at h
          obtain ⟨-, hreq, havail⟩ := h
          rw [if_neg hemp]
          exact ⟨hreq ▸ hszlt, havail.symm⟩
      · have hge : size ≤ (decode_segment_node a.header.sentinel).2 :=
          Nat.not_lt.mp hsmall
        have hpop := alloc_slow_path_pop a size f pf hro hne hns hge
        have hnoerr : ∀ s' req avail, ¬(alloc_bytes_in a size f pf
            = some (s', .error (.insufficientSpace req avail))) := by
          intro s' req avail h
          simp only [alloc_bytes_in, hro, Bool.false_eq_true, if_false] at h
          rw [if_neg hsz.ne', if_pos hwant] at h
          cases hd : dealloc
              { a with header := { a.header with
                  sentinel := get_segment_node a (decode_segment_node a.header.sentinel).1 } }
              (((decode_segment_node a.header.sentinel).1 + size) % pow32)
              ((decode_segment_node a.header.sentinel).2 - size) f pf with
          | none =>
            rw [hd] at hpop
            simp only [Option.map_none'] at hpop
            rw [slowLoop_none a size 0 f pf 255 hpop] at h
            simp at h
          | some a₃ =>
            rw [hd] at hpop
            simp only [Option.map_some'] at hpop
            rw [slowLoop_ok a size 0 f pf 255 a₃ _ hpop] at h
            simp at h
        constructor
        · constructor
          · rintro ⟨s', req, avail, h⟩
            exact absurd h (hnoerr _ _ _)
          · rintro ⟨-, hor⟩
            rcases hor with h | h
            · exact absurd h hemp
            · exact absurd h hsmall
        · intro s' req avail h
          exact absurd h (hnoerr _ _ _)

/-- Witness for C6 on the exhausted S1 arena with an empty free list. -/
theorem c6_insufficient_space_witness :
    ((∃ s' req avail, alloc_bytes_in exhaustedArena 20 1 1
        = some (s', .error (.insufficientSpace req avail)))
      ↔ (exhaustedArena.cap < exhaustedArena.header.allocated + 20 ∧
         (decode_segment_node exhaustedArena.header.sentinel = (u32Max, u32Max) ∨
          (decode_segment_node exhaustedArena.header.sentinel).2 < 20))) ∧
    (∀ s' req avail, alloc_bytes_in exhaustedArena 20 1 1
        = some (s', .error (.insufficientSpace req avail)) →
      req = 20 ∧
      avail = (if decode_segment_node exhaustedArena.header.sentinel = (u32Max, u32Max)
               then exhaustedArena.remaining
               else (decode_segment_node exhaustedArena.header.sentinel).2)) :=
  c6_insufficient_space_iff exhaustedArena 20 1 1 rfl (by decide) (by decide) (by decide)
    (Or.inl rfl)

end ClaimsTwo

section ClaimsThree

/-- C7 (amended): for non-zero-sized T, the fast path of alloc reserves the
local alignment padding of the current bump pointer plus size_of(T) — at
most align_of(T) - 1 + size_of(T) — with offset = old allocated; the
aligned pointer of that offset is align_of(T)-aligned and its size_of(T)
bytes end exactly at the end of the reservation; zero-sized T returns the
null descriptor leaving the arena untouched. -/
theorem c7_typed_alloc :
    (∀ (a : Arena) (sizeT alignT f pf : Nat),
      a.ro = false → 0 < sizeT → 0 < alignT → a.header.allocated ≠ 0 →
      a.header.allocated +
          (align_offset (dataAddr a + a.header.allocated) alignT + sizeT) ≤ a.cap →
      a.cap < pow32 → alignT + sizeT ≤ pow32 →
      alloc_in a sizeT alignT f pf =
        some (bumpTo a (a.header.allocated +
                (align_offset (dataAddr a + a.header.allocated) alignT + sizeT)),
              .ok (some ⟨a.header.allocated,
                align_offset (dataAddr a + a.header.allocated) alignT + sizeT⟩)) ∧
      align_offset (dataAddr a + a.header.allocated) alignT + sizeT
        ≤ alignT - 1 + sizeT ∧
      alignT ∣ get_aligned_pointer a a.header.allocated alignT ∧
      get_aligned_pointer a a.header.allocated alignT + sizeT
        = dataAddr a + a.header.allocated +
          (align_offset (dataAddr a + a.header.allocated) alignT + sizeT)) ∧
    (∀ (a : Arena) (alignT f pf : Nat), a.ro = false →
      alloc_in a 0 alignT f pf = some (a, .ok none)) := by
  constructor
  · intro a sizeT alignT f pf hro hszT halign hA0 hfit hcap hsum
    have hao : align_offset (dataAddr a + a.header.allocated) alignT < alignT := by
      unfold align_offset
      exact Nat.mod_lt _ halign
    have hptr : get_pointer a a.header.allocated = dataAddr a + a.header.allocated := by
      rw [get_pointer, if_neg hA0]
    have h1 : align_offset (get_pointer a a.header.allocated) alignT % pow32
        = align_offset (dataAddr a + a.header.allocated) alignT := by
      rw [hptr]
      exact Nat.mod_eq_of_lt (by omega)
    have h2 : (align_offset (dataAddr a + a.header.allocated) alignT + sizeT) % pow32
        = align_offset (dataAddr a + a.header.allocated) alignT + sizeT :=
      Nat.mod_eq_of_lt (by omega)
    have h3 : (a.header.allocated +
        (align_offset (dataAddr a + a.header.allocated) alignT + sizeT)) % pow32
        = a.header.allocated +
          (align_offset (dataAddr a + a.header.allocated) alignT + sizeT) :=
      Nat.mod_eq_of_lt (by omega)
    refine ⟨?_, by omega, ?_, ?_⟩
    · simp only [alloc_in, hro, Bool.false_eq_true, if_false]
      rw [if_neg hszT.ne', h1, h2, h3, if_neg (Nat.not_lt.mpr hfit)]
    · rw [get_aligned_pointer, if_neg hA0]
      exact align_offset_dvd _ _ halign
    · simp only [get_aligned_pointer]
      rw [if_neg hA0]
      omega
  · intro a alignT f pf hro
    simp [alloc_in, hro]

/-- Witness for C7: alloc of a u64-shaped type (size 8, align 8) on the fresh
S1 arena reserves 8 bytes (the bump pointer address is already aligned). -/
theorem c7_typed_alloc_witness :
    alloc_in s1Arena 8 8 3 3 =
      some (bumpTo s1Arena (s1Arena.header.allocated +
              (align_offset (dataAddr s1Arena + s1Arena.header.allocated) 8 + 8)),
            .ok (some ⟨s1Arena.header.allocated,
              align_offset (dataAddr s1Arena + s1Arena.header.allocated) 8 + 8⟩)) ∧
    align_offset (dataAddr s1Arena + s1Arena.header.allocated) 8 + 8 ≤ 8 - 1 + 8 ∧
    8 ∣ get_aligned_pointer s1Arena s1Arena.header.allocated 8 ∧
    get_aligned_pointer s1Arena s1Arena.header.allocated 8 + 8
      = dataAddr s1Arena + s1Arena.header.allocated +
        (align_offset (dataAddr s1Arena + s1Arena.header.allocated) 8 + 8) :=
  c7_typed_alloc.1 s1Arena 8 8 3 3 rfl (by decide) (by decide) (by decide) (by decide)
    (by decide) (by decide)

/-- Counterexample to C7 as stated: on the fresh S1 arena (bump pointer
already 8-aligned), alloc of a u64-shaped type reserves 8 bytes
(allocated goes from 16 to 24), not align_of - 1 + size_of = 15. -/
theorem c7_counterexample :
    (alloc_in s1Arena 8 8 1 1).map (fun p => (p.2, p.1.header.allocated))
      = some (.ok (some ⟨16, 8⟩), 24) ∧ 24 - 16 ≠ 8 - 1 + 8 := ⟨by decide, by decide⟩

/-- C8 (code bug): clear resets allocated to data_offset, the sentinel to the
empty marker and discarded to 0, and the next alloc_bytes returns offset
data_offset; but the zeroed byte range starts at base + data_offset and
covers cap bytes, ending at 80 — 16 bytes past the region end 64: the
code zeroes cap bytes from write_data_ptr instead of cap - data_offset. -/
theorem c8_clear_overruns :
    (Arena.clear c8start).map (fun c =>
        (c.header.allocated, decode_segment_node c.header.sentinel, c.header.discarded))
      = some (16, (u32Max, u32Max), 0) ∧
    ((Arena.clear c8start).bind (fun c => alloc_bytes_in c 5 1 1)).map (fun p => p.2)
      = some (.ok (some ⟨16, 5⟩)) ∧
    clearZeroedRange c8start = (16, 80) ∧
    c8start.baseAddr + c8start.cap = 64 ∧ 64 < 80 :=
  ⟨by decide, by decide, by decide, by decide, by decide⟩

/-- C9 (amended): for 1 ≤ max_retries ≤ 255, when every slow-path attempt
fails with the same error and unchanged arena, the retry loop performs
exactly max_retries attempts and then returns that (last) error. -/
theorem c9_retry_cap (a : Arena) (size f pf : Nat) (e : AError)
    (h1 : 1 ≤ a.maxRetries) (h255 : a.maxRetries ≤ 255)
    (hsp : alloc_slow_path a size f pf = some (a, .error e)) :
    slowLoop a size 0 256 f pf = some (a.maxRetries, a, .error e) := by
  have htgt : retryTarget a.maxRetries = a.maxRetries - 1 := by
    rw [retryTarget]
    have h : a.maxRetries + 255 = 256 + (a.maxRetries - 1) := by omega
    rw [h, Nat.add_mod_left, Nat.mod_eq_of_lt (by omega)]
  have hlt : retryTarget a.maxRetries < 256 := Nat.mod_lt _ (by omega)
  have hloop := slowLoop_error a size f pf e hsp 256 0 (Nat.zero_le _) (by omega)
  rw [hloop, htgt]
  have hcount : a.maxRetries - 1 + 1 - 0 = a.maxRetries := by omega
  rw [hcount]

/-- Witness for C9 on the exhausted S1 arena (max_retries = 1). -/
theorem c9_retry_cap_witness :
    slowLoop exhaustedArena 20 0 256 1 1
      = some (exhaustedArena.maxRetries, exhaustedArena,
          .error (.insufficientSpace (20 % pow32) (exhaustedArena.remaining % pow32))) :=
  c9_retry_cap exhaustedArena 20 1 1 _ (by decide) (by decide)
    (alloc_slow_path_empty exhaustedArena 20 1 1 rfl rfl)

/-- Counterexample to C9 as stated: with max_retries = 0 the u8 comparison
i == max_retries - 1 wraps to 255, so the loop performs 256 slow-path
attempts — more than the at most 0 the claim allows (it does terminate,
returning the last InsufficientSpace, contrary to the spec's note that it
would loop forever). -/
theorem c9_counterexample :
    (slowLoop retry0Arena 20 0 256 1 1).map (fun p => (p.1, p.2.2))
      = some (256, .error (.insufficientSpace 20 8)) ∧ ¬(256 ≤ 0) := by
  have hsp : alloc_slow_path retry0Arena 20 1 1
      = some (retry0Arena, .error (.insufficientSpace 20 8)) :=
    alloc_slow_path_empty retry0Arena 20 1 1 rfl rfl
  have h := slowLoop_error retry0Arena 20 1 1 _ hsp 256 0 (Nat.zero_le _) (by decide)
  constructor
  · rw [h]
    decide
  · decide

end ClaimsThree
